import Mathlib

/-!
Shallow embedding of `src/src/assert.rs` of the `assert_cmd` repository.

The repository wraps a completed `std::process::Output` in an `Assert`
value with chainable check methods that panic on mismatch, plus a
coercion layer turning literals (an exit code, a list of codes, a byte
literal, a text literal) into predicates of the external `predicates`
crate.  Panics are embedded as `Except AssertError`; the external
predicate interface is embedded as a structure with independent `eval`
and `findCase` fields, the shape of `predicates_core::Predicate`.
-/

namespace AssertCmd

/-- A captured byte stream, one natural number per byte (`Vec<u8>`). -/
abbrev Bytes := List Nat

/-- `std::process::ExitStatus` as observed by the repository: the code
only ever calls `.success()` and `.code()`, so the embedding records
exactly those two observations. `code = none` means the process
terminated without an exit code (interrupted by a signal). -/
structure ExitStatus where
  success : Bool
  code : Option Int
deriving DecidableEq, Repr

/-- `std::process::Output`: exit status plus captured stdout/stderr. -/
structure Output where
  status : ExitStatus
  stdout : Bytes
  stderr : Bytes
deriving DecidableEq, Repr

/-- The content of a `predicates_core::reflection::Case` explanation is
irrelevant to every claim; only its presence or absence matters. -/
abbrev Case := Unit

/-- The `predicates_core::Predicate<T>` interface: a boolean evaluation
and a `find_case` method.  The two fields are independent, as they are
for an arbitrary caller-supplied implementation of the trait. -/
structure CorePredicate (α : Type) where
  eval : α → Bool
  findCase : Bool → α → Option Case

/-- Modelled from the spec: the default `find_case` of the external
predicate library returns a case exactly when `eval` agrees with the
`expected` flag (a mismatch explanation exists iff the evaluation comes
out as asked). All concrete predicates the repository constructs use
this default. -/
def CorePredicate.ofEval {α : Type} (f : α → Bool) : CorePredicate α :=
  { eval := f
    findCase := fun expected v => if f v = expected then some () else none }

/-- Modelled from the spec: `predicates::ord::eq(value)` — exact
equality against `value` (spec 4.2: "exact equality against that
integer", "exact byte-for-byte equality"). -/
def predicates.ord.eq {α : Type} [DecidableEq α] (value : α) : CorePredicate α :=
  CorePredicate.ofEval (fun item => decide (item = value))

/-- Modelled from the spec: `predicates::iter::in_iter(value)` —
membership in the collection (spec 4.2: "passes if the observed code
equals any member"). -/
def predicates.iter.in_iter (value : List Int) : CorePredicate Int :=
  CorePredicate.ofEval (fun item => value.contains item)

/-- Modelled from the spec: `predicates::str::similar(value)` — the
similarity rule requires exact textual equality (spec 4.2: "require
exact textual equality ... as provided by the underlying similarity
rule"). -/
def predicates.str.similar (value : String) : CorePredicate String :=
  CorePredicate.ofEval (fun item => item == value)

/-- Is `b` a UTF-8 continuation byte (`0x80 ..= 0xBF`)? -/
def utf8Cont (b : Nat) : Bool :=
  0x80 ≤ b && b < 0xC0

/-- Strict UTF-8 decoding of a byte list into characters: rejects
continuation bytes in leading position, overlong encodings, surrogate
code points and code points above `0x10FFFF`, exactly as
`str::from_utf8` does. -/
def utf8Chars : List Nat → Option (List Char)
  | [] => some []
  | b :: rest =>
    if b < 0x80 then
      (utf8Chars rest).map (fun cs => Char.ofNat b :: cs)
    else if b < 0xC2 then
      none
    else if b < 0xE0 then
      match rest with
      | b1 :: rest2 =>
        if utf8Cont b1 then
          (utf8Chars rest2).map (fun cs =>
            Char.ofNat ((b - 0xC0) * 0x40 + (b1 - 0x80)) :: cs)
        else none
      | [] => none
    else if b < 0xF0 then
      match rest with
      | b1 :: b2 :: rest3 =>
        if (if b = 0xE0 then decide (0xA0 ≤ b1) && decide (b1 < 0xC0)
            else if b = 0xED then decide (0x80 ≤ b1) && decide (b1 < 0xA0)
            else utf8Cont b1) && utf8Cont b2 then
          (utf8Chars rest3).map (fun cs =>
            Char.ofNat ((b - 0xE0) * 0x1000 + (b1 - 0x80) * 0x40 + (b2 - 0x80)) :: cs)
        else none
      | _ => none
    else if b < 0xF5 then
      match rest with
      | b1 :: b2 :: b3 :: rest4 =>
        if (if b = 0xF0 then decide (0x90 ≤ b1) && decide (b1 < 0xC0)
            else if b = 0xF4 then decide (0x80 ≤ b1) && decide (b1 < 0x90)
            else utf8Cont b1) && utf8Cont b2 && utf8Cont b3 then
          (utf8Chars rest4).map (fun cs =>
            Char.ofNat ((b - 0xF0) * 0x40000 + (b1 - 0x80) * 0x1000
              + (b2 - 0x80) * 0x40 + (b3 - 0x80)) :: cs)
        else none
      | _ => none
    else none

/-- `str::from_utf8` on a byte buffer, as a whole string. -/
def decodeUtf8 (bs : Bytes) : Option String :=
  (utf8Chars bs).map fun cs => String.mk cs

/-- Modelled from the spec: `PredicateStrExt::from_utf8` wrapping a
string predicate into a byte predicate (`predicates::str::Utf8Predicate`).
Decoding the bytes as UTF-8 and applying the inner predicate; a decode
failure "is itself treated as does not match" (spec 7), i.e. `eval` is
false and `find_case` reports the decode failure as the mismatch case. -/
def predicates.str.from_utf8 (inner : CorePredicate String) : CorePredicate Bytes :=
  { eval := fun bytes =>
      match decodeUtf8 bytes with
      | some s => inner.eval s
      | none => false
    findCase := fun expected bytes =>
      match decodeUtf8 bytes with
      | some s => inner.findCase expected s
      | none => if expected then none else some () }

/-- `EqCodePredicate::new`: wraps `predicates::ord::eq(value)`; its
`eval`/`find_case` delegate to the wrapped predicate unchanged. -/
def EqCodePredicate.new (value : Int) : CorePredicate Int :=
  predicates.ord.eq value

/-- `impl IntoCodePredicate<EqCodePredicate> for i32`: `into_code`
builds `EqCodePredicate::new(self)`. -/
def IntoCodePredicate.i32 (n : Int) : CorePredicate Int :=
  EqCodePredicate.new n

/-- `InCodePredicate::new`: wraps `predicates::iter::in_iter(value)`;
`eval`/`find_case` delegate to the wrapped predicate unchanged. -/
def InCodePredicate.new (value : List Int) : CorePredicate Int :=
  predicates.iter.in_iter value

/-- `impl IntoCodePredicate<InCodePredicate> for Vec<i32>`. -/
def IntoCodePredicate.vec (v : List Int) : CorePredicate Int :=
  InCodePredicate.new v

/-- `impl IntoCodePredicate<InCodePredicate> for &'static [i32]`:
`self.iter().cloned()` yields the same element sequence. -/
def IntoCodePredicate.slice (v : List Int) : CorePredicate Int :=
  InCodePredicate.new v

/-- `BytesContentOutputPredicate::new`: wraps
`predicates::ord::eq(value)` over byte slices. -/
def BytesContentOutputPredicate.new (value : Bytes) : CorePredicate Bytes :=
  predicates.ord.eq value

/-- `impl IntoOutputPredicate<BytesContentOutputPredicate> for &'static [u8]`. -/
def IntoOutputPredicate.bytes (b : Bytes) : CorePredicate Bytes :=
  BytesContentOutputPredicate.new b

/-- `StrContentOutputPredicate::from_str`:
`predicates::str::similar(value).from_utf8()`. -/
def StrContentOutputPredicate.from_str (value : String) : CorePredicate Bytes :=
  predicates.str.from_utf8 (predicates.str.similar value)

/-- `StrContentOutputPredicate::from_string`: identical construction
from an owned `String`. -/
def StrContentOutputPredicate.from_string (value : String) : CorePredicate Bytes :=
  predicates.str.from_utf8 (predicates.str.similar value)

/-- `impl IntoOutputPredicate<StrContentOutputPredicate> for &'static str`. -/
def IntoOutputPredicate.str (s : String) : CorePredicate Bytes :=
  StrContentOutputPredicate.from_str s

/-- `impl IntoOutputPredicate<StrContentOutputPredicate> for String`. -/
def IntoOutputPredicate.string (s : String) : CorePredicate Bytes :=
  StrContentOutputPredicate.from_string s

/-- The distinct panic messages of `Assert`'s check methods, one
constructor per `panic!` site in `src/src/assert.rs`. -/
inductive AssertError where
  /-- `success`: "Unexpected failure. code=<interrupted> ..." -/
  | unexpectedFailureInterrupted
  /-- `success`: "Unexpected failure. code-{actual} ..." -/
  | unexpectedFailureCode (code : Int)
  /-- `failure`: "Unexpected success". -/
  | unexpectedSuccess
  /-- `interrupted`: "Unexpected completion". -/
  | unexpectedCompletion
  /-- `code_impl`: "Command interrupted". -/
  | commandInterrupted
  /-- `code_impl`: "Unexpected return code, failed {case tree}". -/
  | unexpectedReturnCode
  /-- `stdout_impl`: "Unexpected stdout, failed {case tree}". -/
  | unexpectedStdout
  /-- `stderr_impl`: "Unexpected stderr, failed {case tree}". -/
  | unexpectedStderr
deriving DecidableEq, Repr

/-- `struct Assert`: the wrapped `Output` plus the ordered context list
of (label, rendered value) pairs. -/
structure Assert where
  output : Output
  context : List (String × String)
deriving DecidableEq, Repr

/-- `Assert::new`: wraps an output with an empty context list. -/
def Assert.new (output : Output) : Assert :=
  { output := output, context := [] }

/-- `Assert::append_context`: pushes one (name, context) pair onto the
end of the context list and returns `self`. -/
def Assert.append_context (a : Assert) (name value : String) : Assert :=
  { a with context := a.context ++ [(name, value)] }

/-- `Assert::success`: passes iff `status.success()`; otherwise panics,
with the interrupted form of the message when no code is available. -/
def Assert.success (a : Assert) : Except AssertError Assert :=
  if a.output.status.success then Except.ok a
  else
    match a.output.status.code with
    | none => Except.error AssertError.unexpectedFailureInterrupted
    | some c => Except.error (AssertError.unexpectedFailureCode c)

/-- `Assert::failure`: panics iff `status.success()`. -/
def Assert.failure (a : Assert) : Except AssertError Assert :=
  if a.output.status.success then Except.error AssertError.unexpectedSuccess
  else Except.ok a

/-- `Assert::interrupted`: panics iff `status.code()` is present. -/
def Assert.interrupted (a : Assert) : Except AssertError Assert :=
  match a.output.status.code with
  | some _ => Except.error AssertError.unexpectedCompletion
  | none => Except.ok a

/-- `Assert::code_impl`: panics "Command interrupted" when no exit code
is available; otherwise panics iff `pred.find_case(false, code)` returns
a case. -/
def Assert.code_impl (a : Assert) (pred : CorePredicate Int) : Except AssertError Assert :=
  match a.output.status.code with
  | none => Except.error AssertError.commandInterrupted
  | some c =>
    match pred.findCase false c with
    | some _ => Except.error AssertError.unexpectedReturnCode
    | none => Except.ok a

/-- `Assert::stdout_impl`: panics iff `pred.find_case(false, stdout)`
returns a case. -/
def Assert.stdout_impl (a : Assert) (pred : CorePredicate Bytes) : Except AssertError Assert :=
  match pred.findCase false a.output.stdout with
  | some _ => Except.error AssertError.unexpectedStdout
  | none => Except.ok a

/-- `Assert::stderr_impl`: panics iff `pred.find_case(false, stderr)`
returns a case. -/
def Assert.stderr_impl (a : Assert) (pred : CorePredicate Bytes) : Except AssertError Assert :=
  match pred.findCase false a.output.stderr with
  | some _ => Except.error AssertError.unexpectedStderr
  | none => Except.ok a

/-- `impl OutputAssertExt for process::Output`: `assert` is
`Assert::new(self)`, no context entry. -/
def OutputAssertExt.assertOutput (o : Output) : Assert :=
  Assert.new o

/-- `impl OutputAssertExt for &mut process::Command`: `self.output()`
may fail to launch (`none`), in which case `.unwrap()` panics (embedded
as `none`); on success the assert gets one pre-appended context entry
labelled "command" holding the command's debug rendering `dbg`. -/
def OutputAssertExt.assertCommand (launch : Option Output) (dbg : String) : Option Assert :=
  match launch with
  | none => none
  | some o => some ((Assert.new o).append_context "command" dbg)

end AssertCmd

namespace AssertCmd

/-- C1: coercing an integer `n` into a code predicate yields
`EqCodePredicate`, which evaluates to true on `m` iff `m = n`. -/
theorem claim_C1_intoCode_i32_eq (n m : Int) :
    ((IntoCodePredicate.i32 n).eval m = true) ↔ m = n := by
  simp [IntoCodePredicate.i32, EqCodePredicate.new, predicates.ord.eq,
    CorePredicate.ofEval]

/-- C2: coercing a finite collection `C` of integers (a vector or a
static slice) into a code predicate yields `InCodePredicate`, which
evaluates to true on `m` iff `m` is a member of `C`. -/
theorem claim_C2_intoCode_collection_mem (C : List Int) (m : Int) :
    (((IntoCodePredicate.vec C).eval m = true) ↔ m ∈ C)
    ∧ (((IntoCodePredicate.slice C).eval m = true) ↔ m ∈ C) := by
  constructor <;>
    simp [IntoCodePredicate.vec, IntoCodePredicate.slice, InCodePredicate.new,
      predicates.iter.in_iter, CorePredicate.ofEval, List.contains]

/-- C3: coercing a static byte sequence `b` into an output predicate
yields `BytesContentOutputPredicate`, which evaluates to true on actual
bytes `a` iff `a` equals `b` byte for byte, with no normalization. -/
theorem claim_C3_intoOutput_bytes_eq (b a : Bytes) :
    ((IntoOutputPredicate.bytes b).eval a = true) ↔ a = b := by
  simp [IntoOutputPredicate.bytes, BytesContentOutputPredicate.new,
    predicates.ord.eq, CorePredicate.ofEval]

/-- C4: coercing a text string `s` (static or owned) into an output
predicate yields `StrContentOutputPredicate`, which is true on bytes `a`
iff `a` decodes as UTF-8 to exactly `s`; invalid UTF-8 or differing
content both make it false, never a separate error. -/
theorem claim_C4_intoOutput_str_decode (s : String) (a : Bytes) :
    (((IntoOutputPredicate.str s).eval a = true) ↔ decodeUtf8 a = some s)
    ∧ (((IntoOutputPredicate.string s).eval a = true) ↔ decodeUtf8 a = some s) := by
  constructor <;>
  · cases h : decodeUtf8 a <;>
      simp [IntoOutputPredicate.str, IntoOutputPredicate.string,
        StrContentOutputPredicate.from_str, StrContentOutputPredicate.from_string,
        predicates.str.from_utf8, predicates.str.similar, CorePredicate.ofEval, h]

/-- C5: on a result without an exit code, `code` fails with the distinct
"Command interrupted" report (not the code-mismatch report) for every
predicate, and `interrupted` passes returning the context; with a code
present, `interrupted` fails. -/
theorem claim_C5_interrupted_code (a : Assert) (p : CorePredicate Int) :
    (a.output.status.code = none →
      Assert.code_impl a p = Except.error AssertError.commandInterrupted
      ∧ Assert.interrupted a = Except.ok a)
    ∧ (∀ c, a.output.status.code = some c →
      Assert.interrupted a = Except.error AssertError.unexpectedCompletion)
    ∧ AssertError.commandInterrupted ≠ AssertError.unexpectedReturnCode := by
  refine ⟨fun h => ?_, fun c h => ?_, by decide⟩ <;>
    simp [Assert.code_impl, Assert.interrupted, h]

/-- C5 witness: a concrete interrupted result and a concrete completed
result exercising both directions. -/
theorem claim_C5_witness :
    (Assert.code_impl (Assert.new ⟨⟨false, none⟩, [], []⟩) (EqCodePredicate.new 0)
        = Except.error AssertError.commandInterrupted
      ∧ Assert.interrupted (Assert.new ⟨⟨false, none⟩, [], []⟩)
        = Except.ok (Assert.new ⟨⟨false, none⟩, [], []⟩))
    ∧ Assert.interrupted (Assert.new ⟨⟨true, some 0⟩, [], []⟩)
        = Except.error AssertError.unexpectedCompletion :=
  ⟨(claim_C5_interrupted_code (Assert.new ⟨⟨false, none⟩, [], []⟩)
      (EqCodePredicate.new 0)).1 rfl,
   (claim_C5_interrupted_code (Assert.new ⟨⟨true, some 0⟩, [], []⟩)
      (EqCodePredicate.new 0)).2.1 0 rfl⟩

/-- C6: `failure` fails (aborts) exactly when `success` on the same
result passes. -/
theorem claim_C6_failure_inverse_success (a : Assert) :
    (∃ e, Assert.failure a = Except.error e) ↔ Assert.success a = Except.ok a := by
  cases hs : a.output.status.success <;>
    cases hc : a.output.status.code <;>
      simp [Assert.failure, Assert.success, hs, hc]

/-- C7: on a result whose status indicates success, `success` does not
abort and returns the assertion context itself unchanged. -/
theorem claim_C7_success_returns_self (a : Assert)
    (h : a.output.status.success = true) :
    Assert.success a = Except.ok a := by
  simp [Assert.success, h]

/-- C7 witness: a process that exited with code 0 and a nonempty context. -/
theorem claim_C7_witness :
    Assert.success ((Assert.new ⟨⟨true, some 0⟩, [], []⟩).append_context "k" "v")
      = Except.ok ((Assert.new ⟨⟨true, some 0⟩, [], []⟩).append_context "k" "v") :=
  claim_C7_success_returns_self
    ((Assert.new ⟨⟨true, some 0⟩, [], []⟩).append_context "k" "v") rfl

/-- C8: the wrapped output never changes; `append_context` appends
exactly one entry at the end preserving earlier entries; and every
passing check returns the context exactly as it was. -/
theorem claim_C8_context_invariants (a : Assert) (n v : String)
    (p : CorePredicate Bytes) (q : CorePredicate Int) (r : Assert) :
    ((a.append_context n v).output = a.output
      ∧ (a.append_context n v).context = a.context ++ [(n, v)])
    ∧ (Assert.success a = Except.ok r → r = a)
    ∧ (Assert.failure a = Except.ok r → r = a)
    ∧ (Assert.interrupted a = Except.ok r → r = a)
    ∧ (Assert.code_impl a q = Except.ok r → r = a)
    ∧ (Assert.stdout_impl a p = Except.ok r → r = a)
    ∧ (Assert.stderr_impl a p = Except.ok r → r = a) := by
  refine ⟨⟨rfl, rfl⟩, ?_, ?_, ?_, ?_, ?_, ?_⟩ <;>
    · intro h
      simp only [Assert.success, Assert.failure, Assert.interrupted,
        Assert.code_impl, Assert.stdout_impl, Assert.stderr_impl] at h
      repeat' split at h
      all_goals first
        | exact (Except.ok.inj h).symm
        | exact Except.noConfusion h

/-- C8 witness: the invariants at a concrete assert with a passing
`success` check. -/
theorem claim_C8_witness :
    (((Assert.new ⟨⟨true, some 0⟩, [], []⟩).append_context "k" "v").context
        = (Assert.new ⟨⟨true, some 0⟩, [], []⟩).context ++ [("k", "v")])
    ∧ Assert.new ⟨⟨true, some 0⟩, [], []⟩ = Assert.new ⟨⟨true, some 0⟩, [], []⟩ :=
  ⟨(claim_C8_context_invariants (Assert.new ⟨⟨true, some 0⟩, [], []⟩) "k" "v"
      (BytesContentOutputPredicate.new []) (EqCodePredicate.new 0)
      (Assert.new ⟨⟨true, some 0⟩, [], []⟩)).1.2,
   (claim_C8_context_invariants (Assert.new ⟨⟨true, some 0⟩, [], []⟩) "k" "v"
      (BytesContentOutputPredicate.new []) (EqCodePredicate.new 0)
      (Assert.new ⟨⟨true, some 0⟩, [], []⟩)).2.1 rfl⟩

/-- C9: stdout/stderr/code checks pass exactly when the predicate's
`find_case(false, actual)` returns no case; `eval` is never consulted,
so the two fields of `CorePredicate` may disagree and `findCase` wins. -/
theorem claim_C9_findCase_decides (a : Assert) (p q : CorePredicate Bytes)
    (pc : CorePredicate Int) :
    (Assert.stdout_impl a p = Except.ok a ↔ p.findCase false a.output.stdout = none)
    ∧ (Assert.stderr_impl a q = Except.ok a ↔ q.findCase false a.output.stderr = none)
    ∧ (∀ c, a.output.status.code = some c →
        (Assert.code_impl a pc = Except.ok a ↔ pc.findCase false c = none)) := by
  refine ⟨?_, ?_, fun c hc => ?_⟩
  · cases hf : p.findCase false a.output.stdout <;> simp [Assert.stdout_impl, hf]
  · cases hf : q.findCase false a.output.stderr <;> simp [Assert.stderr_impl, hf]
  · cases hf : pc.findCase false c <;> simp [Assert.code_impl, hc, hf]

/-- C9 witness: a predicate whose `eval` is constantly false but whose
`findCase` never reports a case still passes all three checks. -/
theorem claim_C9_witness :
    Assert.stdout_impl (Assert.new ⟨⟨true, some 7⟩, [104], [119]⟩)
        ⟨fun _ => false, fun _ _ => none⟩
      = Except.ok (Assert.new ⟨⟨true, some 7⟩, [104], [119]⟩)
    ∧ Assert.code_impl (Assert.new ⟨⟨true, some 7⟩, [104], [119]⟩)
        ⟨fun _ => false, fun _ _ => none⟩
      = Except.ok (Assert.new ⟨⟨true, some 7⟩, [104], [119]⟩) :=
  ⟨(claim_C9_findCase_decides (Assert.new ⟨⟨true, some 7⟩, [104], [119]⟩)
      ⟨fun _ => false, fun _ _ => none⟩ ⟨fun _ => false, fun _ _ => none⟩
      ⟨fun _ => false, fun _ _ => none⟩).1.mpr rfl,
   ((claim_C9_findCase_decides (Assert.new ⟨⟨true, some 7⟩, [104], [119]⟩)
      ⟨fun _ => false, fun _ _ => none⟩ ⟨fun _ => false, fun _ _ => none⟩
      ⟨fun _ => false, fun _ _ => none⟩).2.2 7 rfl).mpr rfl⟩

/-- C10: `assert()` on a command panics when the launch fails; on a
successful launch the assert carries exactly one pre-appended context
entry labelled "command" with the command's debug rendering; `assert()`
on a completed output adds no context entry. -/
theorem claim_C10_assert_construction (o : Output) (dbg : String) :
    OutputAssertExt.assertCommand none dbg = none
    ∧ OutputAssertExt.assertCommand (some o) dbg
        = some (Assert.mk o [("command", dbg)])
    ∧ (OutputAssertExt.assertOutput o).context = [] :=
  ⟨rfl, rfl, rfl⟩

end AssertCmd
